import Mathlib

/-!
Shallow embedding of `utils/net.go` from the chatnio repository: the
proxy-configurable HTTP client factory (`newClient`), the JSON body encoder
(`ConvertBody`) with its POST helper, and the line-delimited stream consumer
(`EventSource`).

Network I/O, URL parsing, SOCKS5 dialer construction and the JSON codec are
external effects; they are abstracted as explicit oracle parameters
(`parseUrl`, `socks5`, `transport`, `parse`, `pretty`, `marshal`).  Everything
the Go code itself computes — branch structure, chunk splitting, trimming,
error messages, log messages, the global TLS mutation — is translated
directly from the source.
-/

namespace Net

/-- A log record emitted through the `globals` logging sink
(`globals.Warn` / `globals.Debug`). -/
inductive LogEntry : Type where
  | warn (msg : String)
  | debug (msg : String)
  deriving DecidableEq, Repr

/-- Modelled from the spec: the `ProxyType` constants of package `globals`
(the `globals` package is not under `src/`).  The spec gives the enum
`{None, Http, Https, Socks5}`; they are modelled as four distinct natural
numbers.  A value outside this set is an unrecognized kind. -/
def NoneProxyType : Nat := 0

/-- Modelled from the spec: `globals.HttpProxyType`. -/
def HttpProxyType : Nat := 1

/-- Modelled from the spec: `globals.HttpsProxyType`. -/
def HttpsProxyType : Nat := 2

/-- Modelled from the spec: `globals.Socks5ProxyType`. -/
def Socks5ProxyType : Nat := 3

/-- Embeds `globals.ProxyConfig`: a proxy kind together with the proxy address. -/
structure ProxyConfig : Type where
  proxyType : Nat
  proxy : String
  deriving DecidableEq, Repr

/-- A Go `time.Duration` is an integer count of nanoseconds. -/
def timeSecond : Nat := 1000000000

/-- The constant `time.Minute` in nanoseconds. -/
def timeMinute : Nat := 60 * timeSecond

/-- Embeds `var maxTimeout = 30 * time.Minute`. -/
def maxTimeout : Nat := 30 * timeMinute

/-- The fields of the `http.Transport` values built by `newClient`:
an optional forward-proxy URL (`Proxy: http.ProxyURL(proxyUrl)`), an
optional SOCKS5-backed dial function (`DialContext`), and the
`TLSClientConfig.InsecureSkipVerify` flag.  `U` is the type of parsed
URLs and `D` the type of SOCKS5 dialers, both produced by oracles. -/
structure Transport (U D : Type) : Type where
  proxyUrl : Option U
  dialContext : Option D
  tlsInsecureSkipVerify : Bool
  deriving DecidableEq, Repr

/-- The fields of the `http.Client` values built by `newClient`: the
timeout (nanoseconds) and the transport. -/
structure Client (U D : Type) : Type where
  timeout : Nat
  transport : Transport U D
  deriving DecidableEq, Repr

/-- The direct transport every branch starts from:
`&http.Transport{TLSClientConfig: &tls.Config{InsecureSkipVerify: true}}`. -/
def baseTransport (U D : Type) : Transport U D :=
  { proxyUrl := none, dialContext := none, tlsInsecureSkipVerify := true }

/-- The client literal at the top of `newClient`:
`&http.Client{Timeout: maxTimeout, Transport: ...}` with the direct
transport. -/
def baseClient (U D : Type) : Client U D :=
  { timeout := maxTimeout, transport := baseTransport U D }

/-- Embeds `newClient(c []globals.ProxyConfig) *http.Client`, together with the log
entries it emits.  `parseUrl` embeds `url.Parse` and `socks5` embeds
`proxy.SOCKS5("tcp", addr, nil, proxy.Direct)`; each either fails with an
error string or returns the parsed artifact. -/
def newClient {U D : Type} (parseUrl : String → Except String U)
    (socks5 : String → Except String D) (c : List ProxyConfig) :
    Client U D × List LogEntry :=
  let client := baseClient U D
  match c with
  | [] => (client, [])
  | config :: _ =>
    if config.proxyType = NoneProxyType then
      (client, [])
    else if config.proxyType = HttpProxyType ∨ config.proxyType = HttpsProxyType then
      match parseUrl config.proxy with
      | .error e =>
        (client, [.warn ("failed to parse proxy url: " ++ e)])
      | .ok proxyUrl =>
        ({ client with
            transport :=
              { proxyUrl := some proxyUrl, dialContext := none,
                tlsInsecureSkipVerify := true } },
         [.debug ("[proxy] configured proxy: " ++ config.proxy)])
    else if config.proxyType = Socks5ProxyType then
      match socks5 config.proxy with
      | .error e =>
        (client, [.warn ("failed to create socks5 proxy: " ++ e)])
      | .ok dialer =>
        ({ client with
            transport :=
              { proxyUrl := none, dialContext := some dialer,
                tlsInsecureSkipVerify := true } },
         [.debug ("[proxy] configured proxy: " ++ config.proxy)])
    else
      (client, [.debug ("[proxy] configured proxy: " ++ config.proxy)])

/-! ### Request construction and the POST helpers -/

/-- An `http.Request` as built by the code: method, URI, headers, and an
optional body reader.  `body = none` models the `nil` reader handed to
`http.NewRequest` (an empty request body); `body = some s` models a reader
over the bytes `s`. -/
structure Request : Type where
  method : String
  uri : String
  headers : List (String × String)
  body : Option String
  deriving DecidableEq, Repr

/-- Embeds `fillHeaders(req, headers)`: sets every pair of the header map on the
request (the request starts with no headers, so this attaches the pairs). -/
def fillHeaders (req : Request) (headers : List (String × String)) : Request :=
  { req with headers := req.headers ++ headers }

/-- Embeds `ConvertBody(body interface\x7b\x7d) io.Reader`: JSON-encode the body; on
success return a reader over the encoded bytes, on failure leave the reader
`nil`.  `marshal` embeds `json.Marshal`. -/
def ConvertBody {α : Type} (marshal : α → Except String String) (body : α) :
    Option String :=
  match marshal body with
  | .ok buffer => some buffer
  | .error _ => none

/-- Embeds `Http(uri, method, ptr, headers, body, config)` restricted to what the
POST-helper claims need: build the request, attach the headers, and hand it
to the network/decode oracle `transport` (which embeds
`client.Do` + JSON-decoding the response into `ptr`).  `newReqErr` embeds a
failure of `http.NewRequest`. -/
def Http {J : Type} (newReqErr : Option String)
    (transport : Request → Except String J) (uri method : String)
    (headers : List (String × String)) (body : Option String) :
    Except String J :=
  match newReqErr with
  | some e => .error e
  | none =>
    transport (fillHeaders
      { method := method, uri := uri, headers := [], body := body } headers)

/-- Embeds `Post(uri, headers, body, config)`: POST with `ConvertBody(body)` as the
request body. -/
def Post {α J : Type} (newReqErr : Option String)
    (transport : Request → Except String J)
    (marshal : α → Except String String) (uri : String)
    (headers : List (String × String)) (body : α) : Except String J :=
  Http newReqErr transport uri "POST" headers (ConvertBody marshal body)

/-! ### The response body as a sequence of reads -/

/-- The error component of one `res.Body.Read(buf)` call: clean end of
file (`io.EOF`) or any other read error. -/
inductive ReadError : Type where
  | eof
  | fail (msg : String)
  deriving DecidableEq, Repr

/-- One call of `res.Body.Read(buf)`: the bytes read (`string(buf[:n])`)
and the error returned alongside them.  A read may return data together
with `io.EOF` in the same call. -/
structure BodyRead : Type where
  chunk : String
  err : Option ReadError
  deriving DecidableEq, Repr

/-- An HTTP response: status code, status line (`res.Status`), and the
successive results of reading its body. -/
structure Response : Type where
  statusCode : Nat
  status : String
  reads : List BodyRead
  deriving DecidableEq, Repr

/-- Embeds `make([]byte, 20480)`: the fixed chunk size of the streaming loop, an
upper bound on the byte length of each read chunk. -/
def chunkSize : Nat := 20480

/-- Outcome of `io.ReadAll(res.Body)` on the modelled read sequence:
`hang` is a model artifact for a read sequence that ends without ever
reporting an error or `io.EOF` (the real reader would block); `readErr`
is a non-EOF read failure; `ok` carries the whole body. -/
inductive ReadAllOut : Type where
  | hang
  | readErr (leftover : String)
  | ok (content : String)
  deriving DecidableEq, Repr

/-- Embeds `io.ReadAll(res.Body)`: concatenate chunks until a read reports an
error; `io.EOF` ends the accumulation cleanly (the bytes returned alongside
it are kept), any other error aborts. -/
def readAllModel : List BodyRead → ReadAllOut
  | [] => .hang
  | r :: rest =>
    match r.err with
    | some .eof => .ok r.chunk
    | some (.fail _) => .readErr r.chunk
    | none =>
      match readAllModel rest with
      | .hang => .hang
      | .readErr s => .readErr (r.chunk ++ s)
      | .ok s => .ok (r.chunk ++ s)

/-! ### The streaming loop -/

/-- Embeds `unicode.IsSpace` as used by `strings.TrimSpace`, on the characters
relevant here: the ASCII whitespace characters and the two Latin-1 spaces
(U+0085, U+00A0).  The wider Unicode space classes are outside the inputs
this development evaluates. -/
def isSpace (c : Char) : Bool :=
  c = ' ' || c = '\t' || c = '\n' || c = '\x0b' || c = '\x0c' || c = '\r' ||
    c = '\u0085' || c = '\u00A0'

/-- Embeds `strings.TrimSpace(s)`: drop leading and trailing whitespace. -/
def goTrimSpace (s : String) : String :=
  String.mk (((s.toList.dropWhile isSpace).reverse.dropWhile isSpace).reverse)

/-- Embeds `strings.Split(s, "\n")`: split on every newline character; adjacent
newlines yield empty pieces and the whole string is one piece when it has
no newline. -/
def goSplitNewline (s : String) : List String :=
  (s.toList.splitOn '\n').map String.mk

/-- The result of one invocation of the caller-supplied callback: success,
an error returned to the loop, or a Go panic. -/
inductive CbOut (E : Type) : Type where
  | ok
  | err (e : E)
  | panicked (msg : String)

/-- Why chunk processing stopped before the end of the chunk. -/
inductive CbStop (E : Type) : Type where
  | err (e : E)
  | panicked (msg : String)

/-- The inner loop over `strings.Split(data, "\n")`: trim each piece,
skip empty segments, and call the callback on each non-empty one, in
order, stopping at the first error or panic.  The callback receives the
number of segments delivered so far (embedding a stateful Go closure).
Returns the segments actually passed to the callback, the updated count,
and the stop condition if any. -/
def processPieces {E : Type} (cb : Nat → String → CbOut E) :
    List String → Nat → List String × Nat × Option (CbStop E)
  | [], k => ([], k, none)
  | item :: rest, k =>
    let segment := goTrimSpace item
    if 0 < segment.length then
      match cb k segment with
      | .ok =>
        let (segs, k', stop) := processPieces cb rest (k + 1)
        (segment :: segs, k', stop)
      | .err e => ([segment], k + 1, some (.err e))
      | .panicked m => ([segment], k + 1, some (.panicked m))
    else
      processPieces cb rest k

/-- Processing of one chunk: `data := string(buf[:n])` split on `"\n"`,
then the piece loop. -/
def processChunk {E : Type} (cb : Nat → String → CbOut E) (k : Nat)
    (data : String) : List String × Nat × Option (CbStop E) :=
  processPieces cb (goSplitNewline data) k

/-- How the streaming loop ended.  `hang` is the model artifact for a read
sequence exhausted without any error (the real read would block). -/
inductive LoopOut (E : Type) : Type where
  | done
  | hang
  | readFail (msg : String)
  | cbFail (e : E)
  | panicked (msg : String)

/-- The `for` loop of `EventSource`: read a chunk; on `io.EOF` return
success at once (discarding any bytes returned alongside it); on any other
read error return that error; otherwise split, trim and deliver the
chunk's segments, stopping if the callback fails or panics.  Returns all
segments delivered to the callback, in order, with the loop outcome. -/
def streamLoop {E : Type} (cb : Nat → String → CbOut E) :
    List BodyRead → Nat → List String × LoopOut E
  | [], _ => ([], .hang)
  | r :: rest, k =>
    match r.err with
    | some .eof => ([], .done)
    | some (.fail m) => ([], .readFail m)
    | none =>
      match processChunk cb k r.chunk with
      | (segs, k', none) =>
        let (more, out) := streamLoop cb rest k'
        (segs ++ more, out)
      | (segs, _, some (.err e)) => (segs, .cbFail e)
      | (segs, _, some (.panicked m)) => (segs, .panicked m)

/-- The segments one chunk contributes when the callback never stops the
loop: split on newlines, trim, drop empties. -/
def segmentsOfChunk (data : String) : List String :=
  ((goSplitNewline data).map goTrimSpace).filter (fun s => 0 < s.length)

/-! ### EventSource -/

/-- The process-wide mutable state `EventSource` touches:
`http.DefaultTransport.(*http.Transport).TLSClientConfig.InsecureSkipVerify`,
together with all other process-wide state, abstracted as `rest : σ`. -/
structure GlobalState (σ : Type) : Type where
  defaultTransportInsecureSkipVerify : Bool
  rest : σ
  deriving DecidableEq, Repr

/-- The error value `EventSource` can return. -/
inductive ESErr (E : Type) : Type where
  | requestError (msg : String)
  | doError (msg : String)
  | statusError (msg : String)
  | readError (msg : String)
  | callbackError (e : E)
  deriving DecidableEq, Repr

/-- Whether `EventSource` returns, and with what; `hangs` is the model
artifact for a body whose reads are exhausted without error (a real read
would block). -/
inductive ESResult (E : Type) : Type where
  | ret (e : Option (ESErr E))
  | hangs
  deriving DecidableEq, Repr

/-- Embeds `debug.Stack()`: the runtime stack trace captured inside the panic
recovery handler.  Modelled from the spec: a runtime artifact with no
computational content in a pure embedding, kept as an abstract marker
string so the log message has the shape the code formats. -/
def stackTrace : String := "<stack>"

/-- The message of the warning the panic recovery handler logs:
`fmt.Sprintf("event source panic: %s (uri: %s, method: %s)\n%s", err, uri,
method, stack)`. -/
def panicLogMessage (err uri method : String) : String :=
  "event source panic: " ++ err ++ " (uri: " ++ uri ++ ", method: " ++
    method ++ ")\n" ++ stackTrace

/-- The status-only failure message:
`fmt.Errorf("request failed with status: %s", res.Status)`. -/
def statusLineMessage (status : String) : String :=
  "request failed with status: " ++ status

/-- The failure message carrying the pretty-printed JSON body:
`fmt.Errorf("request failed with status: %s\n`&#96;`json\n%s\n`&#96;`", res.Status, data)`
(with three backticks around the json block). -/
def statusBodyMessage (status data : String) : String :=
  "request failed with status: " ++ status ++ "\n```json\n" ++ data ++
    "\n```"

/-- Everything observable about one `EventSource` call: the returned error
(or hang), the segments delivered to the callback in order, the log
entries emitted, and the resulting process-wide state. -/
structure ESOutput (E σ : Type) : Type where
  result : ESResult E
  segments : List String
  logs : List LogEntry
  globalState : GlobalState σ

/-- The request `EventSource` (and `Http`) sends:
`http.NewRequest(method, uri, ConvertBody(body))` followed by
`fillHeaders(req, headers)`. -/
def builtRequest {α : Type} (marshal : α → Except String String)
    (method uri : String) (headers : List (String × String)) (body : α) :
    Request :=
  fillHeaders
    { method := method, uri := uri, headers := [],
      body := ConvertBody marshal body } headers

/-- Embeds `EventSource(method, uri, headers, body, callback, config...)`.

External effects are oracle parameters: `parseUrl`/`socks5` feed
`newClient`, `marshal` embeds `json.Marshal` inside `ConvertBody`,
`newReqErr` a failure of `http.NewRequest`, `transport` the network
round-trip `client.Do`, `parse` embeds
`Unmarshal[map[string]interface{}]` and `pretty` embeds
`MarshalWithIndent` (both from this repository's utils, absent from the
given sources).  The function body follows the Go source line by line:
set the process-wide default transport to skip certificate verification,
build a client via `newClient`, build the request with
`ConvertBody(body)` and `fillHeaders`, send it; on status ≥ 400 read the
whole body and fail with a status error (pretty-printing the body when it
parses as a generic JSON object); otherwise run the streaming loop.  The
deferred `recover` turns a panic into a logged warning and a `nil`
return. -/
def eventSource {U D E J σ α : Type}
    (parseUrl : String → Except String U) (socks5 : String → Except String D)
    (config : List ProxyConfig)
    (parse : String → Option J) (pretty : J → Nat → String)
    (marshal : α → Except String String)
    (method uri : String) (headers : List (String × String)) (body : α)
    (newReqErr : Option String)
    (transport : Request → Except String Response)
    (cb : Nat → String → CbOut E)
    (g : GlobalState σ) : ESOutput E σ :=
  let g' : GlobalState σ := { g with defaultTransportInsecureSkipVerify := true }
  let clientLogs := (newClient parseUrl socks5 config).2
  match newReqErr with
  | some m => ⟨.ret (some (.requestError m)), [], clientLogs, g'⟩
  | none =>
    match transport (builtRequest marshal method uri headers body) with
    | .error m => ⟨.ret (some (.doError m)), [], clientLogs, g'⟩
    | .ok res =>
      if 400 ≤ res.statusCode then
        match readAllModel res.reads with
        | .hang => ⟨.hangs, [], clientLogs, g'⟩
        | .ok content =>
          match parse content with
          | some form =>
            ⟨.ret (some (.statusError
                (statusBodyMessage res.status (pretty form 2)))),
              [], clientLogs, g'⟩
          | none =>
            ⟨.ret (some (.statusError (statusLineMessage res.status))),
              [], clientLogs, g'⟩
        | .readErr _ =>
          ⟨.ret (some (.statusError (statusLineMessage res.status))),
            [], clientLogs, g'⟩
      else
        match streamLoop cb res.reads 0 with
        | (segs, .done) => ⟨.ret none, segs, clientLogs, g'⟩
        | (segs, .hang) => ⟨.hangs, segs, clientLogs, g'⟩
        | (segs, .readFail m) =>
          ⟨.ret (some (.readError m)), segs, clientLogs, g'⟩
        | (segs, .cbFail e) =>
          ⟨.ret (some (.callbackError e)), segs, clientLogs, g'⟩
        | (segs, .panicked m) =>
          ⟨.ret none, segs,
            clientLogs ++ [.warn (panicLogMessage m uri method)], g'⟩

/-! ### Concrete oracles used by the witness theorems -/

/-- A URL-parse oracle that always fails (for witnesses). -/
def wParseUrl : String → Except String Unit := fun _ => .error "bad url"

/-- A SOCKS5-dialer oracle that always fails (for witnesses). -/
def wSocks5 : String → Except String Unit := fun _ => .error "bad dialer"

/-- A JSON-object parse oracle that never parses (for witnesses). -/
def wParse : String → Option Unit := fun _ => none

/-- A JSON-object parse oracle that always parses (for witnesses). -/
def wParseSome : String → Option Unit := fun _ => some ()

/-- A pretty-printer oracle (for witnesses). -/
def wPretty : Unit → Nat → String := fun _ _ => "body"

/-- A marshal oracle that always fails to encode (for witnesses). -/
def wMarshal : Unit → Except String String := fun _ => .error "enc"

/-- A marshal oracle that succeeds (for witnesses). -/
def wMarshalOk : Unit → Except String String := fun _ => .ok "null"

/-- A network oracle answering every request with the given response. -/
def wTransport (res : Response) : Request → Except String Response :=
  fun _ => .ok res

/-- A network/decode oracle for the POST helpers (for witnesses). -/
def wTransportJ : Request → Except String Unit := fun _ => .ok ()

/-- A callback that always succeeds. -/
def wCbOk : Nat → String → CbOut Unit := fun _ _ => .ok

/-- A callback that fails on the segment with the given index. -/
def wCbErrAt (n : Nat) : Nat → String → CbOut String :=
  fun k _ => if k = n then .err "stop" else .ok

/-- A callback that panics on every segment. -/
def wCbPanic : Nat → String → CbOut Unit := fun _ _ => .panicked "boom"

/-- An initial process-wide state for witnesses. -/
def wGlobal : GlobalState Unit :=
  { defaultTransportInsecureSkipVerify := false, rest := () }

/-- Witness response: status 200, body `"a\nb\n\nc"` in one read. -/
def wRes1 : Response :=
  { statusCode := 200, status := "200 OK",
    reads := [{ chunk := "a\nb\n\nc", err := none },
      { chunk := "", err := some .eof }] }

/-- Witness response: status 200, body split as `"ab"` then `"c\n"`. -/
def wRes2 : Response :=
  { statusCode := 200, status := "200 OK",
    reads := [{ chunk := "ab", err := none },
      { chunk := "c\n", err := none }, { chunk := "", err := some .eof }] }

/-- Witness response: status 404 with a one-read body. -/
def wRes404 : Response :=
  { statusCode := 404, status := "404 Not Found",
    reads := [{ chunk := "x", err := some .eof }] }

/-- Witness response: status 200 with four segments in the first read and
more data buffered behind it. -/
def wRes3 : Response :=
  { statusCode := 200, status := "200 OK",
    reads := [{ chunk := "a\nb\nc\nd", err := none },
      { chunk := "e", err := none }, { chunk := "", err := some .eof }] }

/-- Witness response: status 200 with a single one-segment read. -/
def wRes4 : Response :=
  { statusCode := 200, status := "200 OK",
    reads := [{ chunk := "x", err := none },
      { chunk := "", err := some .eof }] }

/-- Witness response: status 200 whose very first read reports eof. -/
def wRes0 : Response :=
  { statusCode := 200, status := "200 OK",
    reads := [{ chunk := "", err := some .eof }] }

/-- Witness response: status 200 whose first read returns data together
with eof in the same call. -/
def wRes5 : Response :=
  { statusCode := 200, status := "200 OK",
    reads := [{ chunk := "discarded", err := some .eof }] }

/-! ### Helper lemmas about the streaming loop -/

/-- When the callback always succeeds, processing a piece list delivers
exactly the trimmed non-empty pieces, in order, and never stops early. -/
theorem processPieces_allOk {E : Type} (cb : Nat → String → CbOut E)
    (hcb : ∀ k s, cb k s = .ok) :
    ∀ (ps : List String) (k : Nat),
      processPieces cb ps k =
        ((ps.map goTrimSpace).filter (fun s => 0 < s.length),
          k + ((ps.map goTrimSpace).filter (fun s => 0 < s.length)).length,
          none) := by
  intro ps
  induction ps with
  | nil => intro k; simp [processPieces]
  | cons item rest ih =>
    intro k
    by_cases h : 0 < (goTrimSpace item).length
    · simp only [processPieces, if_pos h, hcb, ih (k + 1), List.map_cons,
        List.filter_cons]
      simp [h, Nat.add_comm, Nat.add_assoc, Nat.add_left_comm]
    · simp only [processPieces, if_neg h, ih k, List.map_cons,
        List.filter_cons]
      simp [h]

/-- When the callback always succeeds, one chunk contributes exactly
`segmentsOfChunk` of its data. -/
theorem processChunk_allOk {E : Type} (cb : Nat → String → CbOut E)
    (hcb : ∀ k s, cb k s = .ok) (k : Nat) (data : String) :
    processChunk cb k data =
      (segmentsOfChunk data, k + (segmentsOfChunk data).length, none) :=
  processPieces_allOk cb hcb (goSplitNewline data) k

/-- When the callback always succeeds, a prefix of error-free reads is
consumed chunk by chunk: each chunk is split independently, its segments
are appended in order, and the loop continues on the remaining reads. -/
theorem streamLoop_consume_ok {E : Type} (cb : Nat → String → CbOut E)
    (hcb : ∀ k s, cb k s = .ok) :
    ∀ (xs : List BodyRead), (∀ r ∈ xs, r.err = none) →
      ∀ (rest : List BodyRead) (k : Nat),
        streamLoop cb (xs ++ rest) k =
          ((xs.map BodyRead.chunk).flatMap segmentsOfChunk ++
              (streamLoop cb rest
                (k + ((xs.map BodyRead.chunk).flatMap segmentsOfChunk).length)).1,
            (streamLoop cb rest
              (k + ((xs.map BodyRead.chunk).flatMap segmentsOfChunk).length)).2) := by
  intro xs
  induction xs with
  | nil => intro _ rest k; simp
  | cons r tail ih =>
    intro hxs rest k
    have hr : r.err = none := hxs r (List.mem_cons_self r tail)
    have htail : ∀ x ∈ tail, x.err = none := fun x hx =>
      hxs x (List.mem_cons_of_mem r hx)
    simp only [List.cons_append, streamLoop, hr,
      processChunk_allOk cb hcb k r.chunk, List.map_cons, List.flatMap_cons,
      List.append_eq]
    rw [ih htail rest (k + (segmentsOfChunk r.chunk).length)]
    simp [List.append_assoc, List.length_append, Nat.add_assoc]

/-- Once the callback has returned an error inside `xs`, the loop's
observable behavior does not depend on any data past `xs`: no further
read happens and no further segment is delivered. -/
theorem streamLoop_cbFail_append {E : Type} (cb : Nat → String → CbOut E)
    (e : E) :
    ∀ (xs ys : List BodyRead) (k : Nat),
      (streamLoop cb xs k).2 = .cbFail e →
      streamLoop cb (xs ++ ys) k = streamLoop cb xs k := by
  intro xs
  induction xs with
  | nil => intro ys k h; simp [streamLoop] at h
  | cons r tail ih =>
    intro ys k h
    rcases hr : r.err with _ | re
    · rcases hpc : processChunk cb k r.chunk with ⟨segs, k', stop⟩
      rcases stop with _ | stop
      · have h2 : (streamLoop cb tail k').2 = .cbFail e := by
          simp only [streamLoop, hr, hpc] at h
          rcases htl : streamLoop cb tail k' with ⟨more, out⟩
          rw [htl] at h
          simpa using h
        simp only [List.cons_append, streamLoop, hr, hpc, List.append_eq,
          ih ys k' h2]
      · rcases stop with e' | m <;>
          simp only [List.cons_append, streamLoop, hr, hpc]
    · rcases re with _ | m <;> simp [streamLoop, hr] at h


section EventSourceLemmas

variable {U D E J σ α : Type}
variable (parseUrl : String → Except String U)
variable (socks5 : String → Except String D)
variable (config : List ProxyConfig)
variable (parse : String → Option J) (pretty : J → Nat → String)
variable (marshal : α → Except String String)
variable (method uri : String) (headers : List (String × String)) (body : α)
variable (transport : Request → Except String Response)
variable (cb : Nat → String → CbOut E) (g : GlobalState σ)

/-- Reduction of `eventSource` in the streaming branch (request sent,
status below 400), keyed on the outcome of the streaming loop. -/
theorem eventSource_streaming (res : Response) (segs : List String)
    (out : LoopOut E)
    (hres : transport (builtRequest marshal method uri headers body) = .ok res)
    (hstatus : res.statusCode < 400)
    (hloop : streamLoop cb res.reads 0 = (segs, out)) :
    eventSource parseUrl socks5 config parse pretty marshal method uri
        headers body none transport cb g =
      ⟨match out with
        | .done => .ret none
        | .hang => .hangs
        | .readFail m => .ret (some (.readError m))
        | .cbFail e => .ret (some (.callbackError e))
        | .panicked _ => .ret none,
        segs,
        match out with
        | .panicked m =>
          (newClient parseUrl socks5 config).2 ++
            [.warn (panicLogMessage m uri method)]
        | _ => (newClient parseUrl socks5 config).2,
        { g with defaultTransportInsecureSkipVerify := true }⟩ := by
  have h400 : ¬ 400 ≤ res.statusCode := not_le.mpr hstatus
  simp only [eventSource, hres, if_neg h400, hloop]
  cases out <;> rfl

/-- Reduction of `eventSource` in the status ≥ 400 branch. -/
theorem eventSource_statusBranch (res : Response)
    (hres : transport (builtRequest marshal method uri headers body) = .ok res)
    (hstatus : 400 ≤ res.statusCode) :
    eventSource parseUrl socks5 config parse pretty marshal method uri
        headers body none transport cb g =
      ⟨match readAllModel res.reads with
        | .hang => .hangs
        | .ok content =>
          match parse content with
          | some form =>
            .ret (some (.statusError
              (statusBodyMessage res.status (pretty form 2))))
          | none => .ret (some (.statusError (statusLineMessage res.status)))
        | .readErr _ =>
          .ret (some (.statusError (statusLineMessage res.status))),
        [],
        (newClient parseUrl socks5 config).2,
        { g with defaultTransportInsecureSkipVerify := true }⟩ := by
  simp only [eventSource, hres, if_pos hstatus]
  rcases h : readAllModel res.reads with _ | s | content <;> simp only [h]
  rcases hp : parse content with _ | form <;> simp only [hp]

/-- C1: every chunk read in the streaming loop (each read of at most
20,480 bytes) is independently split on newline characters, each piece is
trimmed of surrounding whitespace, empty pieces are discarded, and every
non-empty piece is passed to the callback one at a time in order; pieces
are never reassembled across chunk boundaries, so the delivered segments
are the concatenation, chunk by chunk, of each chunk's own segments. -/
theorem eventSource_chunkwise_segmentation
    (res : Response) (xs : List BodyRead) (c : String) (post : List BodyRead)
    (hres : transport (builtRequest marshal method uri headers body) = .ok res)
    (hstatus : res.statusCode < 400)
    (hreads : res.reads = xs ++ { chunk := c, err := some .eof } :: post)
    (hxs : ∀ r ∈ xs, r.err = none)
    ( _hsize : ∀ r ∈ xs, r.chunk.utf8ByteSize ≤ chunkSize)
    (hcb : ∀ k s, cb k s = .ok) :
    (eventSource parseUrl socks5 config parse pretty marshal method uri
        headers body none transport cb g).segments =
      (xs.map BodyRead.chunk).flatMap segmentsOfChunk := by
  have hloop : streamLoop cb res.reads 0 =
      ((xs.map BodyRead.chunk).flatMap segmentsOfChunk, .done) := by
    rw [hreads,
      streamLoop_consume_ok cb hcb xs hxs ({ chunk := c, err := some .eof } :: post) 0]
    simp [streamLoop]
  rw [eventSource_streaming parseUrl socks5 config parse pretty marshal
    method uri headers body transport cb g res _ .done hres hstatus hloop]

/-- C1 witness: the body `"a\nb\n\nc"` delivered in one read yields the
segments `["a", "b", "c"]`, and the body delivered as the two reads
`"ab"` then `"c\n"` yields `["ab", "c"]`. -/
theorem eventSource_chunkwise_segmentation_witness :
    (eventSource wParseUrl wSocks5 [] wParse wPretty wMarshal "POST" "u" [] ()
        none (wTransport wRes1) wCbOk wGlobal).segments = ["a", "b", "c"] ∧
    (eventSource wParseUrl wSocks5 [] wParse wPretty wMarshal "POST" "u" [] ()
        none (wTransport wRes2) wCbOk wGlobal).segments = ["ab", "c"] := by
  constructor
  · exact (eventSource_chunkwise_segmentation wParseUrl wSocks5 [] wParse
      wPretty wMarshal "POST" "u" [] () (wTransport wRes1) wCbOk wGlobal
      wRes1 [{ chunk := "a\nb\n\nc", err := none }] "" []
      rfl (by decide) (by decide) (by decide) (by decide)
      (fun _ _ => rfl)).trans (by decide)
  · exact (eventSource_chunkwise_segmentation wParseUrl wSocks5 [] wParse
      wPretty wMarshal "POST" "u" [] () (wTransport wRes2) wCbOk wGlobal
      wRes2 [{ chunk := "ab", err := none }, { chunk := "c\n", err := none }]
      "" [] rfl (by decide) (by decide) (by decide) (by decide)
      (fun _ _ => rfl)).trans (by decide)

/-- C2: for every response with status at least 400 the segment callback
is never invoked, the whole body is read, and a status error is returned:
when the body parses as a generic JSON object the error message carries
the status line and the indent-2 pretty-printed body, otherwise only the
status line. -/
theorem eventSource_status_never_invokes_callback
    (res : Response)
    (hres : transport (builtRequest marshal method uri headers body) = .ok res)
    (hstatus : 400 ≤ res.statusCode) :
    (eventSource parseUrl socks5 config parse pretty marshal method uri
        headers body none transport cb g).segments = [] ∧
    (∀ content form, readAllModel res.reads = .ok content →
      parse content = some form →
      (eventSource parseUrl socks5 config parse pretty marshal method uri
          headers body none transport cb g).result =
        .ret (some (.statusError
          (statusBodyMessage res.status (pretty form 2))))) ∧
    (∀ content, readAllModel res.reads = .ok content → parse content = none →
      (eventSource parseUrl socks5 config parse pretty marshal method uri
          headers body none transport cb g).result =
        .ret (some (.statusError (statusLineMessage res.status)))) ∧
    (∀ leftover, readAllModel res.reads = .readErr leftover →
      (eventSource parseUrl socks5 config parse pretty marshal method uri
          headers body none transport cb g).result =
        .ret (some (.statusError (statusLineMessage res.status)))) := by
  rw [eventSource_statusBranch parseUrl socks5 config parse pretty marshal
    method uri headers body transport cb g res hres hstatus]
  refine ⟨rfl, fun content form hra hp => ?_, fun content hra hp => ?_,
    fun leftover hra => ?_⟩
  · simp only [hra, hp]
  · simp only [hra, hp]
  · simp only [hra]

/-- C2 witness: a 404 response whose body parses as a JSON object yields
no segments and the status-line-plus-body error; with a parse oracle that
rejects the body it yields the status-line-only error. -/
theorem eventSource_status_never_invokes_callback_witness :
    (eventSource wParseUrl wSocks5 [] wParseSome wPretty wMarshal "POST" "u"
        [] () none (wTransport wRes404) wCbOk wGlobal).segments = [] ∧
    (eventSource wParseUrl wSocks5 [] wParseSome wPretty wMarshal "POST" "u"
        [] () none (wTransport wRes404) wCbOk wGlobal).result =
      .ret (some (.statusError
        (statusBodyMessage "404 Not Found" "body"))) ∧
    (eventSource wParseUrl wSocks5 [] wParse wPretty wMarshal "POST" "u"
        [] () none (wTransport wRes404) wCbOk wGlobal).result =
      .ret (some (.statusError (statusLineMessage "404 Not Found"))) := by
  refine ⟨?_, ?_, ?_⟩
  · exact (eventSource_status_never_invokes_callback wParseUrl wSocks5 []
      wParseSome wPretty wMarshal "POST" "u" [] () (wTransport wRes404)
      wCbOk wGlobal wRes404 rfl (by decide)).1
  · exact (eventSource_status_never_invokes_callback wParseUrl wSocks5 []
      wParseSome wPretty wMarshal "POST" "u" [] () (wTransport wRes404)
      wCbOk wGlobal wRes404 rfl (by decide)).2.1 "x" () (by decide) rfl
  · exact (eventSource_status_never_invokes_callback wParseUrl wSocks5 []
      wParse wPretty wMarshal "POST" "u" [] () (wTransport wRes404)
      wCbOk wGlobal wRes404 rfl (by decide)).2.2.1 "x" (by decide) rfl

/-- C3: if the callback returns an error on some segment, EventSource
returns exactly that error and stops at once: the delivered segments are
those produced up to and including the failing one, and neither the rest
of the current data nor any later read (`ys` is arbitrary) contributes. -/
theorem eventSource_callback_error_stops
    (res : Response) (xs ys : List BodyRead) (e : E)
    (hres : transport (builtRequest marshal method uri headers body) = .ok res)
    (hstatus : res.statusCode < 400)
    (hreads : res.reads = xs ++ ys)
    (hfail : (streamLoop cb xs 0).2 = .cbFail e) :
    (eventSource parseUrl socks5 config parse pretty marshal method uri
        headers body none transport cb g).result =
      .ret (some (.callbackError e)) ∧
    (eventSource parseUrl socks5 config parse pretty marshal method uri
        headers body none transport cb g).segments =
      (streamLoop cb xs 0).1 := by
  rcases h0 : streamLoop cb xs 0 with ⟨segs0, out0⟩
  have hout : out0 = .cbFail e := by rw [h0] at hfail; exact hfail
  subst hout
  have hloop : streamLoop cb res.reads 0 = (segs0, .cbFail e) := by
    rw [hreads, streamLoop_cbFail_append cb e xs ys 0 hfail, h0]
  rw [eventSource_streaming parseUrl socks5 config parse pretty marshal
    method uri headers body transport cb g res segs0 (.cbFail e) hres
    hstatus hloop]
  exact ⟨rfl, rfl⟩

/-- C3 witness: with a callback failing on the second segment of the body
`"a\nb\nc\nd"` (with a further read buffered behind it), the stream stops
with that error after delivering exactly `["a", "b"]`. -/
theorem eventSource_callback_error_stops_witness :
    (eventSource wParseUrl wSocks5 [] wParse wPretty wMarshal "POST" "u" [] ()
        none (wTransport wRes3) (wCbErrAt 1) wGlobal).result =
      .ret (some (.callbackError "stop")) ∧
    (eventSource wParseUrl wSocks5 [] wParse wPretty wMarshal "POST" "u" [] ()
        none (wTransport wRes3) (wCbErrAt 1) wGlobal).segments = ["a", "b"] := by
  have h := eventSource_callback_error_stops wParseUrl wSocks5 [] wParse
    wPretty wMarshal "POST" "u" [] () (wTransport wRes3) (wCbErrAt 1) wGlobal
    wRes3 [{ chunk := "a\nb\nc\nd", err := none }]
    [{ chunk := "e", err := none }, { chunk := "", err := some .eof }]
    "stop" rfl (by decide) (by decide) rfl
  exact ⟨h.1, h.2.trans (by decide)⟩

/-- C4: a panic raised during streaming — here, a panic of the
caller-supplied callback — is caught by the deferred recovery boundary:
a warning carrying the panic value, the URI, the method and the stack
trace is logged, and EventSource returns as if it had succeeded (a nil
error). -/
theorem eventSource_panic_recovered
    (res : Response) (m : String)
    (hres : transport (builtRequest marshal method uri headers body) = .ok res)
    (hstatus : res.statusCode < 400)
    (hpanic : (streamLoop cb res.reads 0).2 = .panicked m) :
    (eventSource parseUrl socks5 config parse pretty marshal method uri
        headers body none transport cb g).result = .ret none ∧
    (eventSource parseUrl socks5 config parse pretty marshal method uri
        headers body none transport cb g).logs =
      (newClient parseUrl socks5 config).2 ++
        [.warn (panicLogMessage m uri method)] := by
  rcases h0 : streamLoop cb res.reads 0 with ⟨segs0, out0⟩
  have hout : out0 = .panicked m := by rw [h0] at hpanic; exact hpanic
  subst hout
  rw [eventSource_streaming parseUrl socks5 config parse pretty marshal
    method uri headers body transport cb g res segs0 (.panicked m) hres
    hstatus h0]
  exact ⟨rfl, rfl⟩

/-- C4 witness: a callback that panics makes EventSource return a nil
error while logging the panic warning that names the URI and method. -/
theorem eventSource_panic_recovered_witness :
    (eventSource wParseUrl wSocks5 [] wParse wPretty wMarshal "POST" "u" [] ()
        none (wTransport wRes4) wCbPanic wGlobal).result = .ret none ∧
    (eventSource wParseUrl wSocks5 [] wParse wPretty wMarshal "POST" "u" [] ()
        none (wTransport wRes4) wCbPanic wGlobal).logs =
      [.warn (panicLogMessage "boom" "u" "POST")] := by
  have h := eventSource_panic_recovered wParseUrl wSocks5 [] wParse wPretty
    wMarshal "POST" "u" [] () (wTransport wRes4) wCbPanic wGlobal wRes4
    "boom" rfl (by decide) rfl
  exact ⟨h.1, h.2.trans (by decide)⟩

/-- C5: when some body read reports clean end-of-file (after any number of
error-free reads, and with a callback that never aborts), EventSource
returns success — whatever number N of segments was delivered, including
N = 0. -/
theorem eventSource_clean_eof_success
    (res : Response) (xs : List BodyRead) (c : String) (post : List BodyRead)
    (hres : transport (builtRequest marshal method uri headers body) = .ok res)
    (hstatus : res.statusCode < 400)
    (hreads : res.reads = xs ++ { chunk := c, err := some .eof } :: post)
    (hxs : ∀ r ∈ xs, r.err = none)
    (hcb : ∀ k s, cb k s = .ok) :
    (eventSource parseUrl socks5 config parse pretty marshal method uri
        headers body none transport cb g).result = .ret none := by
  have hloop : streamLoop cb res.reads 0 =
      ((xs.map BodyRead.chunk).flatMap segmentsOfChunk, .done) := by
    rw [hreads,
      streamLoop_consume_ok cb hcb xs hxs ({ chunk := c, err := some .eof } :: post) 0]
    simp [streamLoop]
  rw [eventSource_streaming parseUrl socks5 config parse pretty marshal
    method uri headers body transport cb g res _ .done hres hstatus hloop]

/-- C5 witness: success both after zero segments (immediate eof) and after
three segments. -/
theorem eventSource_clean_eof_success_witness :
    (eventSource wParseUrl wSocks5 [] wParse wPretty wMarshal "POST" "u" [] ()
        none (wTransport wRes0) wCbOk wGlobal).result = .ret none ∧
    (eventSource wParseUrl wSocks5 [] wParse wPretty wMarshal "POST" "u" [] ()
        none (wTransport wRes1) wCbOk wGlobal).result = .ret none := by
  refine ⟨?_, ?_⟩
  · exact eventSource_clean_eof_success wParseUrl wSocks5 [] wParse wPretty
      wMarshal "POST" "u" [] () (wTransport wRes0) wCbOk wGlobal wRes0 [] ""
      [] rfl (by decide) (by decide) (by decide) (fun _ _ => rfl)
  · exact eventSource_clean_eof_success wParseUrl wSocks5 [] wParse wPretty
      wMarshal "POST" "u" [] () (wTransport wRes1) wCbOk wGlobal wRes1
      [{ chunk := "a\nb\n\nc", err := none }] "" [] rfl (by decide)
      (by decide) (by decide) (fun _ _ => rfl)

/-- C6: a read that returns data together with clean end-of-file in the
same call is silently discarded: the eof check precedes chunk processing,
so EventSource returns success and none of those bytes reach the
callback — the delivered segments come from the earlier reads only. -/
theorem eventSource_eof_data_discarded
    (res : Response) (xs : List BodyRead) (c : String) (post : List BodyRead)
    (hres : transport (builtRequest marshal method uri headers body) = .ok res)
    (hstatus : res.statusCode < 400)
    (hreads : res.reads = xs ++ { chunk := c, err := some .eof } :: post)
    ( _hc : 0 < c.utf8ByteSize)
    (hxs : ∀ r ∈ xs, r.err = none)
    (hcb : ∀ k s, cb k s = .ok) :
    (eventSource parseUrl socks5 config parse pretty marshal method uri
        headers body none transport cb g).result = .ret none ∧
    (eventSource parseUrl socks5 config parse pretty marshal method uri
        headers body none transport cb g).segments =
      (xs.map BodyRead.chunk).flatMap segmentsOfChunk := by
  have hloop : streamLoop cb res.reads 0 =
      ((xs.map BodyRead.chunk).flatMap segmentsOfChunk, .done) := by
    rw [hreads,
      streamLoop_consume_ok cb hcb xs hxs ({ chunk := c, err := some .eof } :: post) 0]
    simp [streamLoop]
  rw [eventSource_streaming parseUrl socks5 config parse pretty marshal
    method uri headers body transport cb g res _ .done hres hstatus hloop]
  exact ⟨rfl, rfl⟩

/-- C6 witness: a first read returning `"discarded"` together with eof
yields success and no segments at all. -/
theorem eventSource_eof_data_discarded_witness :
    (eventSource wParseUrl wSocks5 [] wParse wPretty wMarshal "POST" "u" [] ()
        none (wTransport wRes5) wCbOk wGlobal).result = .ret none ∧
    (eventSource wParseUrl wSocks5 [] wParse wPretty wMarshal "POST" "u" [] ()
        none (wTransport wRes5) wCbOk wGlobal).segments = [] := by
  have h := eventSource_eof_data_discarded wParseUrl wSocks5 [] wParse
    wPretty wMarshal "POST" "u" [] () (wTransport wRes5) wCbOk wGlobal wRes5
    [] "discarded" [] rfl (by decide) (by decide) (by decide) (by decide)
    (fun _ _ => rfl)
  exact ⟨h.1, h.2.trans (by decide)⟩

/-- C9: every invocation of EventSource sets the process-wide default
transport's TLS configuration to certificate-verification-disabled — the
same constant `true` on every invocation and under every request
outcome — and modifies no other process-wide state (the `rest` component
is preserved untouched). -/
theorem eventSource_sets_global_tls (newReqErr : Option String) :
    (eventSource parseUrl socks5 config parse pretty marshal method uri
        headers body newReqErr transport cb g).globalState =
      { g with defaultTransportInsecureSkipVerify := true } := by
  rcases newReqErr with _ | m
  · simp only [eventSource]
    rcases htr : transport (builtRequest marshal method uri headers body)
      with m | res
    · rfl
    · by_cases h4 : 400 ≤ res.statusCode
      · simp only [if_pos h4]
        rcases hra : readAllModel res.reads with _ | lft | content <;>
          simp only [hra]
        rcases hp : parse content with _ | form <;> simp only [hp]
      · simp only [if_neg h4]
        rcases hsl : streamLoop cb res.reads 0 with ⟨segs, out⟩
        cases out <;> rfl
  · rfl

end EventSourceLemmas

/-- C7: for a proxy config whose HTTP(S) address fails to parse, whose
SOCKS5 dialer construction fails, or whose kind is outside the recognized
set, the factory returns the functioning direct-transport client
(`baseClient`), recording a warning in the two failure cases; it never
fails the caller. -/
theorem newClient_degrade_not_fail {U D : Type}
    (parseUrl : String → Except String U) (socks5 : String → Except String D)
    (cfg : ProxyConfig) (rest : List ProxyConfig) :
    ((cfg.proxyType = HttpProxyType ∨ cfg.proxyType = HttpsProxyType) →
      ∀ e, parseUrl cfg.proxy = .error e →
      newClient parseUrl socks5 (cfg :: rest) =
        (baseClient U D, [.warn ("failed to parse proxy url: " ++ e)])) ∧
    (cfg.proxyType = Socks5ProxyType →
      ∀ e, socks5 cfg.proxy = .error e →
      newClient parseUrl socks5 (cfg :: rest) =
        (baseClient U D, [.warn ("failed to create socks5 proxy: " ++ e)])) ∧
    (cfg.proxyType ≠ NoneProxyType → cfg.proxyType ≠ HttpProxyType →
      cfg.proxyType ≠ HttpsProxyType → cfg.proxyType ≠ Socks5ProxyType →
      newClient parseUrl socks5 (cfg :: rest) =
        (baseClient U D,
          [.debug ("[proxy] configured proxy: " ++ cfg.proxy)])) := by
  refine ⟨fun hk e he => ?_, fun hk e he => ?_, fun h0 h1 h2 h3 => ?_⟩
  · have hn : ¬ cfg.proxyType = NoneProxyType := by
      rcases hk with h | h <;> rw [h] <;> decide
    simp only [newClient, if_neg hn, if_pos hk, he]
  · have hn : ¬ cfg.proxyType = NoneProxyType := by rw [hk]; decide
    have hh : ¬ (cfg.proxyType = HttpProxyType ∨
        cfg.proxyType = HttpsProxyType) := by rw [hk]; decide
    simp only [newClient, if_neg hn, if_neg hh, if_pos hk, he]
  · have hh : ¬ (cfg.proxyType = HttpProxyType ∨
        cfg.proxyType = HttpsProxyType) := fun h => h.elim h1 h2
    simp only [newClient, if_neg h0, if_neg hh, if_neg h3]

/-- C7 witness: an HTTP-kind config with an unparsable address degrades to
the direct client and logs the parse warning. -/
theorem newClient_degrade_not_fail_witness :
    newClient wParseUrl wSocks5 [{ proxyType := HttpProxyType, proxy := "u" }] =
      (baseClient Unit Unit, [.warn "failed to parse proxy url: bad url"]) := by
  exact (newClient_degrade_not_fail wParseUrl wSocks5
    { proxyType := HttpProxyType, proxy := "u" } []).1 (Or.inl rfl)
    "bad url" rfl

/-- C8: every client the factory returns has a timeout of exactly 30
minutes and TLS certificate verification disabled, in every branch, and
the returned client depends only on the first element of the proxy-config
list. -/
theorem newClient_timeout_tls_first_only {U D : Type}
    (parseUrl : String → Except String U)
    (socks5 : String → Except String D) :
    (∀ c : List ProxyConfig,
      (newClient parseUrl socks5 c).1.timeout = 30 * timeMinute ∧
      (newClient parseUrl socks5 c).1.transport.tlsInsecureSkipVerify =
        true) ∧
    (∀ c c' : List ProxyConfig, c.head? = c'.head? →
      (newClient parseUrl socks5 c).1 = (newClient parseUrl socks5 c').1) := by
  constructor
  · intro c
    rcases c with _ | ⟨cfg, rest⟩
    · exact ⟨rfl, rfl⟩
    · by_cases h0 : cfg.proxyType = NoneProxyType
      · simp only [newClient, if_pos h0]
        exact ⟨rfl, rfl⟩
      · by_cases h1 : cfg.proxyType = HttpProxyType ∨
            cfg.proxyType = HttpsProxyType
        · rcases hu : parseUrl cfg.proxy with e | u <;>
            simp only [newClient, if_neg h0, if_pos h1, hu] <;>
            exact ⟨rfl, by trivial⟩
        · by_cases h2 : cfg.proxyType = Socks5ProxyType
          · rcases hd : socks5 cfg.proxy with e | d <;>
              simp only [newClient, if_neg h0, if_neg h1, if_pos h2, hd] <;>
              exact ⟨rfl, by trivial⟩
          · simp only [newClient, if_neg h0, if_neg h1, if_neg h2]
            exact ⟨rfl, rfl⟩
  · intro c c' h
    rcases c with _ | ⟨a, t⟩ <;> rcases c' with _ | ⟨a', t'⟩
    · rfl
    · exact absurd h (by simp)
    · exact absurd h (by simp)
    · have : a = a' := by simpa using h
      subst this
      simp only [newClient]

/-- C8 witness: a `None`-kind config yields the 30-minute timeout, and the
client ignores everything past the first config. -/
theorem newClient_timeout_tls_first_only_witness :
    (newClient wParseUrl wSocks5
        [{ proxyType := NoneProxyType, proxy := "x" }]).1.timeout =
      30 * timeMinute ∧
    (newClient wParseUrl wSocks5
        [{ proxyType := NoneProxyType, proxy := "x" }]).1 =
      (newClient wParseUrl wSocks5
        [{ proxyType := NoneProxyType, proxy := "x" },
          { proxyType := Socks5ProxyType, proxy := "y" }]).1 := by
  refine ⟨((newClient_timeout_tls_first_only wParseUrl wSocks5).1 _).1, ?_⟩
  exact (newClient_timeout_tls_first_only wParseUrl wSocks5).2
    [{ proxyType := NoneProxyType, proxy := "x" }]
    [{ proxyType := NoneProxyType, proxy := "x" },
      { proxyType := Socks5ProxyType, proxy := "y" }] (by decide)

/-- C10: when JSON-encoding the POST body fails, `ConvertBody` yields a
nil reader and the request is sent with an empty body — the call's outcome
is exactly that of posting with no body, so the encoding error never
reaches the caller; when encoding succeeds, `ConvertBody` is a reader over
the encoded bytes. -/
theorem convertBody_encode_failure_silent {α J : Type}
    (newReqErr : Option String) (transport : Request → Except String J)
    (marshal : α → Except String String) (uri : String)
    (headers : List (String × String)) (b : α) :
    (∀ e, marshal b = .error e → ConvertBody marshal b = none) ∧
    (∀ s, marshal b = .ok s → ConvertBody marshal b = some s) ∧
    (∀ e, marshal b = .error e →
      Post newReqErr transport marshal uri headers b =
        Http newReqErr transport uri "POST" headers none) := by
  refine ⟨fun e he => ?_, fun s hs => ?_, fun e he => ?_⟩
  · simp [ConvertBody, he]
  · simp [ConvertBody, hs]
  · simp [Post, ConvertBody, he]

/-- C10 witness: with an encoder that always fails, `ConvertBody` is nil,
the POST goes out with an empty body, and with an encoder that succeeds
`ConvertBody` carries the encoded bytes. -/
theorem convertBody_encode_failure_silent_witness :
    ConvertBody wMarshal () = none ∧
    Post none wTransportJ wMarshal "u" [] () =
      Http none wTransportJ "u" "POST" [] none ∧
    ConvertBody wMarshalOk () = some "null" := by
  refine ⟨?_, ?_, ?_⟩
  · exact (convertBody_encode_failure_silent none wTransportJ wMarshal "u"
      [] ()).1 "enc" rfl
  · exact (convertBody_encode_failure_silent none wTransportJ wMarshal "u"
      [] ()).2.2 "enc" rfl
  · exact (convertBody_encode_failure_silent none wTransportJ wMarshalOk "u"
      [] ()).2.1 "null" rfl

end Net
